import Mathlib

/-!
Verification of the photobrain image-processing pipeline
(packages/image-processing/src): format classification, batch dispatch,
RAW histogram matching (histogram → CDF → tone curve), orientation
normalization and per-item result records.

Machine floats (f64) of the CDF computation are embedded as exact
rationals; u8 pixel values as Fin 256; u64 bucket counts as Nat.
External collaborators (filesystem, libraw, libheif, the CLIP model,
the perceptual hash, the thumbnail writer) are oracles in an `Env`
record, as the spec's §6 describes them by interface only.
-/

/-- An owned raster: width, height and the pixel at column x, row y
(meaningful for x < width, y < height). The pixel type is a parameter:
`Px` below for interleaved 8-bit RGB. -/
structure Img (α : Type) where
  width : Nat
  height : Nat
  pix : Nat → Nat → α

/-- One RGB pixel: channel 0 = R, 1 = G, 2 = B, each an 8-bit value. -/
def Px : Type := Fin 3 → Fin 256

/-- An RGB raster (the `RgbImage` of image-processing/src/raw.rs). -/
def RgbImg : Type := Img Px

/-- Pixel-identical rasters: same dimensions and the same pixel at every
in-bounds coordinate. -/
def ImgEq {α : Type} (a b : Img α) : Prop :=
  a.width = b.width ∧ a.height = b.height ∧
    ∀ x y, x < b.width → y < b.height → a.pix x y = b.pix x y

/-- `DynamicImage::fliph`: mirror around the vertical axis. -/
def fliph {α : Type} (img : Img α) : Img α :=
  ⟨img.width, img.height, fun x y => img.pix (img.width - 1 - x) y⟩

/-- `DynamicImage::flipv`: mirror around the horizontal axis. -/
def flipv {α : Type} (img : Img α) : Img α :=
  ⟨img.width, img.height, fun x y => img.pix x (img.height - 1 - y)⟩

/-- `DynamicImage::rotate180`. -/
def rotate180 {α : Type} (img : Img α) : Img α :=
  ⟨img.width, img.height, fun x y => img.pix (img.width - 1 - x) (img.height - 1 - y)⟩

/-- `DynamicImage::rotate90` (90° clockwise): a W×H raster becomes H×W,
output pixel (x, y) is input pixel (y, H−1−x). -/
def rotate90 {α : Type} (img : Img α) : Img α :=
  ⟨img.height, img.width, fun x y => img.pix y (img.height - 1 - x)⟩

/-- `DynamicImage::rotate270` (270° clockwise): a W×H raster becomes H×W,
output pixel (x, y) is input pixel (W−1−y, x). -/
def rotate270 {α : Type} (img : Img α) : Img α :=
  ⟨img.height, img.width, fun x y => img.pix (img.width - 1 - y) x⟩

/-- `apply_orientation` of src/packages/image-processing/src/orientation.rs
(duplicated verbatim in batch.rs and inlined in raw.rs): dispatch on the
EXIF orientation code, every unlisted code (1, 0, ≥ 9, absent) is the
identity. -/
def apply_orientation {α : Type} (img : Img α) (orientation : Option Nat) : Img α :=
  match orientation with
  | some 2 => fliph img
  | some 3 => rotate180 img
  | some 4 => flipv img
  | some 5 => fliph (rotate270 img)
  | some 6 => rotate90 img
  | some 7 => fliph (rotate90 img)
  | some 8 => rotate270 img
  | _ => img

/-- The fixed-stride sampling step of `compute_rgb_histograms_sampled`
(raw.rs): every `step`-th pixel is sampled, step 1 for rasters of at most
500 000 pixels. -/
def sampleStep (total_pixels : Nat) : Nat :=
  if 500000 < total_pixels then max (total_pixels / 500000) 1 else 1

/-- The i-th pixel of the row-major pixel iteration (`img.pixels()`). -/
def linPix (img : RgbImg) (i : Nat) : Px :=
  img.pix (i % img.width) (i / img.width)

/-- `compute_rgb_histograms_sampled` (raw.rs): per-channel 256-bucket
histogram over the pixels whose row-major index is divisible by the
sampling step. Bucket v of channel ch counts the sampled pixels whose
channel-ch value is v. -/
def compute_rgb_histograms_sampled (img : RgbImg) (ch : Fin 3) : Nat → Nat :=
  fun v =>
    ((Finset.range (img.width * img.height)).filter
      (fun i => i % sampleStep (img.width * img.height) = 0 ∧ (linPix img i ch : Nat) = v)).card

/-- `histogram_to_cdf` (raw.rs): cumulative sums normalized by the total
count; the all-zero histogram gives the all-zero CDF. Indices beyond 255
are never consulted by the pipeline. -/
def histogram_to_cdf (histogram : Nat → Nat) : Nat → ℚ :=
  fun i =>
    let total : Nat := ∑ v ∈ Finset.range 256, histogram v
    if total = 0 then 0
    else ((∑ v ∈ Finset.range (i + 1), histogram v : Nat) : ℚ) / (total : ℚ)

/-- The binary-search loop of `build_tone_curve` (raw.rs): while low < high,
mid = (low+high)/2; move low past mid when target_cdf[mid] < s, else move
high down to mid. -/
def bsearchLoop (target_cdf : Nat → ℚ) (s : ℚ) (low high : Nat) : Nat :=
  if low < high then
    if target_cdf ((low + high) / 2) < s then
      bsearchLoop target_cdf s ((low + high) / 2 + 1) high
    else
      bsearchLoop target_cdf s low ((low + high) / 2)
  else low
termination_by high - low
decreasing_by
  · omega
  · omega

/-- `build_tone_curve` (raw.rs): for each source level, binary-search the
target CDF on [0, 255] for the source percentile, then step back by one
when the lower neighbour is strictly closer; the `as u8` cast of the Rust
source is the `% 256`. -/
def build_tone_curve (source_cdf target_cdf : Nat → ℚ) (i : Nat) : Fin 256 :=
  let source_percentile := source_cdf i
  let low := bsearchLoop target_cdf source_percentile 0 255
  if 0 < low ∧
      |source_percentile - target_cdf (low - 1)| < |source_percentile - target_cdf low| then
    ⟨(low - 1) % 256, Nat.mod_lt _ (by norm_num)⟩
  else
    ⟨low % 256, Nat.mod_lt _ (by norm_num)⟩

/-- `apply_rgb_curves_inplace` (raw.rs): remap every pixel's channel v
through curve[ch][v]. -/
def apply_rgb_curves_inplace (img : RgbImg) (curves : Fin 3 → Nat → Fin 256) : RgbImg :=
  ⟨img.width, img.height, fun x y => fun ch => curves ch (img.pix x y ch)⟩

/-- Split a character list at every occurrence of `c` (like `str::split`);
always at least one (possibly empty) piece. -/
def splitOnChar (c : Char) : List Char → List (List Char)
  | [] => [[]]
  | x :: xs =>
    let r := splitOnChar c xs
    if x = c then [] :: r
    else
      match r with
      | [] => [[x]]
      | y :: ys => (x :: y) :: ys

/-- The final path component, as `Path::file_name` reads it on `/`-separated
paths. -/
def lastComponent (l : List Char) : List Char :=
  (splitOnChar '/' l).getLastD []

/-- `Path::extension` on the file name: the portion after the last dot;
none when there is no dot or the only dot is the leading one of a hidden
file. -/
def extOf (l : List Char) : Option (List Char) :=
  match splitOnChar '.' l with
  | [] => none
  | [_] => none
  | s0 :: rest => if s0 = [] ∧ rest.length = 1 then none else some (rest.getLastD [])

/-- The extension of a path as an (optional) string. -/
def rustExtension (p : String) : Option String :=
  (extOf (lastComponent p.data)).map fun l => String.mk l

/-- RAW file extensions (batch.rs `RAW_EXTENSIONS`). -/
def RAW_EXTENSIONS : List String :=
  [".cr2", ".cr3", ".nef", ".arw", ".dng", ".raf", ".orf", ".rw2", ".pef", ".srw",
   ".x3f", ".3fr", ".iiq", ".rwl"]

/-- Standard image extensions (batch.rs `STANDARD_EXTENSIONS`). -/
def STANDARD_EXTENSIONS : List String :=
  [".jpg", ".jpeg", ".png", ".gif", ".webp", ".bmp", ".tiff", ".tif"]

/-- HEIF/HEIC extensions (batch.rs `HEIF_EXTENSIONS`). -/
def HEIF_EXTENSIONS : List String := [".heic", ".heif"]

/-- File type tag (batch.rs `FileType`). -/
inductive FileType where
  | Raw
  | Heif
  | Standard
  | Unsupported
deriving DecidableEq

/-- The lowercase dot-prefixed extension `detect_file_type` compares against
its static sets (empty string when the path has no extension). -/
def dotLowerExt (p : String) : String :=
  match rustExtension p with
  | some e => String.mk ('.' :: e.data.map Char.toLower)
  | none => ""

/-- `detect_file_type` (batch.rs): classify a path by its
lowercase-normalized extension against the three disjoint static sets. -/
def detect_file_type (file_path : String) : FileType :=
  let ext := dotLowerExt file_path
  if RAW_EXTENSIONS.contains ext then FileType.Raw
  else if HEIF_EXTENSIONS.contains ext then FileType.Heif
  else if STANDARD_EXTENSIONS.contains ext then FileType.Standard
  else FileType.Unsupported

/-- `get_raw_format` (batch.rs): the uppercased extension, when present. -/
def get_raw_format (file_path : String) : Option String :=
  (rustExtension file_path).map fun e => String.mk (e.data.map Char.toUpper)

/-- `is_heif_file` (heif.rs): the lowercased path ends in ".heic" or
".heif". -/
def is_heif_file (file_path : String) : Bool :=
  let lower := (file_path.data.map Char.toLower)
  List.isSuffixOf ".heic".data lower || List.isSuffixOf ".heif".data lower

/-- `Path::file_name` rendered as a string (used for the record's `name`). -/
def rustFileName (p : String) : String := String.mk (lastComponent p.data)

/-- The slice of `fs::metadata` the pipeline reads: byte length and the
creation/modification instants as epoch milliseconds when the platform
reports them. -/
structure FileMeta where
  size : Int
  created : Option ℚ
  modified : Option ℚ

/-- The slice of extracted EXIF data the pipeline branches on (the full
`ExifData` of exif.rs carries further capture fields that flow through
records untouched). -/
structure ExifData where
  orientation : Option Nat
deriving DecidableEq

/-- Embedded-thumbnail format tag (rsraw `ThumbFormat`). -/
inductive ThumbFormat where
  | Jpeg
  | Other
deriving DecidableEq

/-- One embedded thumbnail of a RAW container: format, pixel dimensions and
an opaque token standing for its encoded bytes. -/
structure Thumb where
  format : ThumbFormat
  width : Nat
  height : Nat
  data : Nat

/-- `Iterator::max_by_key`: the maximal element, the last one on ties. -/
def maxByKeyLast {α : Type} (key : α → Nat) (l : List α) : Option α :=
  l.foldl
    (fun acc t =>
      match acc with
      | none => some t
      | some b => if key b ≤ key t then some t else some b)
    none

/-- The external collaborators of the pipeline, per §6 of the spec:
filesystem reads, the EXIF tool, the pixel codecs, libraw handles (keyed
by the opaque token of the bytes `fs::read` returned), the perceptual
hash, the thumbnail writer and the CLIP embedding provider. -/
structure Env where
  metadata : String → Except String FileMeta
  exif : String → Option ExifData
  decodeHeif : String → Except String RgbImg
  decodeStd : String → Except String (RgbImg × Option String)
  phash : RgbImg → String
  thumbsGen : RgbImg → String → String → Except String Unit
  clip : RgbImg → Option (List ℚ)
  readRaw : String → Except String Nat
  openRaw : Nat → Except String Unit
  extractThumbs : Nat → Except String (List Thumb)
  decodeMem : Nat → Option RgbImg
  unpackRaw : Nat → Except String Unit
  processRaw : Nat → Except String RgbImg
  bufferOk : Nat → Bool

/-- `extract_preview_with_jpeg` (raw.rs): of the container's thumbnails
keep the JPEG ones, take the largest by pixel area, decode it; the decoded
raster together with the original encoded bytes. -/
def extract_preview_with_jpeg (env : Env) (fd : Nat) : Option (RgbImg × Nat) :=
  match env.extractThumbs fd with
  | Except.error _ => none
  | Except.ok thumbs =>
    match maxByKeyLast (fun t => t.width * t.height)
        (thumbs.filter (fun t => t.format = ThumbFormat.Jpeg)) with
    | none => none
    | some jpeg_thumb =>
      match env.decodeMem jpeg_thumb.data with
      | some rgb_img => some (rgb_img, jpeg_thumb.data)
      | none => none

/-- `RawCompleteResult` (raw.rs). `processing_time_ms` is wall-clock time
in the source; the embedding pins it to 0. -/
structure RawCompleteResult where
  width : Nat
  height : Nat
  phash : Option String
  clip_embedding : Option (List ℚ)
  exif : Option ExifData
  histogram_matched : Bool
  processing_time_ms : Nat
  success : Bool
  error : Option String

/-- The early-return failure record of `process_raw_complete_internal`:
every fallible stage aborts with this shape, only the message differs. -/
def rawFailResult (exif : Option ExifData) (msg : String) : RawCompleteResult :=
  { width := 0, height := 0, phash := none, clip_embedding := none, exif := exif,
    histogram_matched := false, processing_time_ms := 0, success := false,
    error := some msg }

/-- `process_raw_complete_internal` (raw.rs): EXIF first; phase 1 reads the
file and extracts the embedded preview (raster for the histogram, bytes
for CLIP); phase 2 re-reads, opens, unpacks and demosaics; histogram
matching is applied when the preview's shorter side is at least 800;
then orientation, phash, thumbnails and the CLIP embedding (from the
preview bytes when available, else the processed raster). -/
def process_raw_complete_internal (env : Env)
    (file_path relative_path thumbnails_dir : String) : RawCompleteResult :=
  let exif := env.exif file_path
  let orientation := exif.bind (fun e => e.orientation)
  match env.readRaw file_path with
  | Except.error e => rawFailResult exif ("Failed to read file: " ++ e)
  | Except.ok fd1 =>
    match env.openRaw fd1 with
    | Except.error e => rawFailResult exif ("Failed to open RAW: " ++ e)
    | Except.ok _ =>
      let preview := extract_preview_with_jpeg env fd1
      let preview_rgb := preview.map (fun pr => pr.1)
      let preview_for_clip :=
        match preview with
        | some pr => env.decodeMem pr.2
        | none => none
      match env.readRaw file_path with
      | Except.error e => rawFailResult exif ("Failed to read file for processing: " ++ e)
      | Except.ok fd2 =>
        match env.openRaw fd2 with
        | Except.error e => rawFailResult exif ("Failed to open RAW for processing: " ++ e)
        | Except.ok _ =>
          match env.unpackRaw fd2 with
          | Except.error e => rawFailResult exif ("Failed to unpack RAW: " ++ e)
          | Except.ok _ =>
            match env.processRaw fd2 with
            | Except.error e => rawFailResult exif ("Failed to process RAW: " ++ e)
            | Except.ok processed =>
              if env.bufferOk fd2 then
                let width := processed.width
                let height := processed.height
                let matched_img :=
                  match preview_rgb with
                  | some preview_img =>
                    if 800 ≤ min preview_img.width preview_img.height then
                      let curves : Fin 3 → Nat → Fin 256 := fun ch =>
                        build_tone_curve
                          (histogram_to_cdf (compute_rgb_histograms_sampled processed ch))
                          (histogram_to_cdf (compute_rgb_histograms_sampled preview_img ch))
                      (true, apply_rgb_curves_inplace processed curves)
                    else (false, processed)
                  | none => (false, processed)
                let histogram_matched := matched_img.1
                let dynamic_img := apply_orientation matched_img.2 orientation
                let phash := some (env.phash dynamic_img)
                let _ := env.thumbsGen dynamic_img relative_path thumbnails_dir
                let clip_embedding :=
                  match preview_for_clip with
                  | some preview_img => env.clip preview_img
                  | none => env.clip dynamic_img
                { width := width, height := height, phash := phash,
                  clip_embedding := clip_embedding, exif := exif,
                  histogram_matched := histogram_matched, processing_time_ms := 0,
                  success := true, error := none }
              else rawFailResult exif "Failed to create image buffer"

/-- `PhotoProcessingResult` (batch.rs): the unified per-item record. -/
structure PhotoProcessingResult where
  path : String
  name : String
  size : Int
  created_at : ℚ
  modified_at : ℚ
  width : Option Nat
  height : Option Nat
  mime_type : Option String
  phash : Option String
  clip_embedding : Option (List ℚ)
  exif : Option ExifData
  is_raw : Bool
  raw_format : Option String
  raw_status : Option String
  raw_error : Option String
  success : Bool
  error : Option String

/-- `process_standard_image` (batch.rs): filesystem metadata, EXIF, decode
(HEIF or the generic reader), orientation, then phash / thumbnails / CLIP;
a metadata or decode failure yields a failed record with absent
dimensions. -/
def process_standard_image (env : Env)
    (file_path relative_path thumbnails_dir : String) : PhotoProcessingResult :=
  match env.metadata file_path with
  | Except.error e =>
    { path := relative_path, name := rustFileName file_path, size := 0,
      created_at := 0, modified_at := 0, width := none, height := none,
      mime_type := none, phash := none, clip_embedding := none, exif := none,
      is_raw := false, raw_format := none, raw_status := none, raw_error := none,
      success := false, error := some ("Failed to read file metadata: " ++ e) }
  | Except.ok md =>
    let name := rustFileName file_path
    let size := md.size
    let created_at := md.created.getD 0
    let modified_at := md.modified.getD 0
    let exif := env.exif file_path
    let orientation := exif.bind (fun e => e.orientation)
    let decode_result : Except String (RgbImg × Option String) :=
      if is_heif_file file_path then
        (env.decodeHeif file_path).map (fun img => (img, some "image/heic"))
      else env.decodeStd file_path
    match decode_result with
    | Except.ok imgMime =>
      let img := apply_orientation imgMime.1 orientation
      let width := img.width
      let height := img.height
      let phash := some (env.phash img)
      let _ := env.thumbsGen img relative_path thumbnails_dir
      let clip_embedding := env.clip img
      { path := relative_path, name := name, size := size,
        created_at := created_at, modified_at := modified_at,
        width := some width, height := some height, mime_type := imgMime.2,
        phash := phash, clip_embedding := clip_embedding, exif := exif,
        is_raw := false, raw_format := none, raw_status := none, raw_error := none,
        success := true, error := none }
    | Except.error e =>
      { path := relative_path, name := name, size := size,
        created_at := created_at, modified_at := modified_at,
        width := none, height := none, mime_type := none, phash := none,
        clip_embedding := none, exif := exif, is_raw := false,
        raw_format := none, raw_status := none, raw_error := none,
        success := false, error := some ("Failed to decode image: " ++ e) }

/-- `process_raw_file` (batch.rs): filesystem metadata, then the complete
RAW pipeline; dimensions are kept only on success, `raw_status` is
"converted" on success and "failed" otherwise. -/
def process_raw_file (env : Env)
    (file_path relative_path thumbnails_dir : String) : PhotoProcessingResult :=
  let raw_format := get_raw_format file_path
  match env.metadata file_path with
  | Except.error e =>
    { path := relative_path, name := rustFileName file_path, size := 0,
      created_at := 0, modified_at := 0, width := none, height := none,
      mime_type := raw_format.map (fun f => "image/x-" ++ String.mk (f.data.map Char.toLower)),
      phash := none, clip_embedding := none, exif := none, is_raw := true,
      raw_format := raw_format, raw_status := some "failed",
      raw_error := some ("Failed to read file metadata: " ++ e),
      success := false, error := some ("Failed to read file metadata: " ++ e) }
  | Except.ok md =>
    let name := rustFileName file_path
    let size := md.size
    let created_at := md.created.getD 0
    let modified_at := md.modified.getD 0
    let raw_result := process_raw_complete_internal env file_path relative_path thumbnails_dir
    { path := relative_path, name := name, size := size,
      created_at := created_at, modified_at := modified_at,
      width := if raw_result.success then some raw_result.width else none,
      height := if raw_result.success then some raw_result.height else none,
      mime_type := raw_format.map (fun f => "image/x-" ++ String.mk (f.data.map Char.toLower)),
      phash := raw_result.phash, clip_embedding := raw_result.clip_embedding,
      exif := raw_result.exif, is_raw := true, raw_format := raw_format,
      raw_status := some (if raw_result.success then "converted" else "failed"),
      raw_error := raw_result.error, success := raw_result.success,
      error := raw_result.error }

/-- `process_photo_internal` (batch.rs): dispatch on the detected file
type; unsupported extensions yield a fixed failed record. -/
def process_photo_internal (env : Env)
    (file_path relative_path thumbnails_dir : String) : PhotoProcessingResult :=
  match detect_file_type file_path with
  | FileType.Raw => process_raw_file env file_path relative_path thumbnails_dir
  | FileType.Heif => process_standard_image env file_path relative_path thumbnails_dir
  | FileType.Standard => process_standard_image env file_path relative_path thumbnails_dir
  | FileType.Unsupported =>
    { path := relative_path, name := rustFileName file_path, size := 0,
      created_at := 0, modified_at := 0, width := none, height := none,
      mime_type := none, phash := none, clip_embedding := none, exif := none,
      is_raw := false, raw_format := none, raw_status := none, raw_error := none,
      success := false, error := some "Unsupported file type" }

/-- `process_photos_batch` (batch.rs): one record per input path, in input
order; the relative path falls back to "" when the lists mismatch. The
bounded rayon pool computes slots independently, so the order-preserving
indexed map is its functional meaning. -/
def process_photos_batch (env : Env)
    (file_paths relative_paths : List String) (thumbnails_dir : String) :
    List PhotoProcessingResult :=
  file_paths.enum.map fun ip =>
    process_photo_internal env ip.2 ((relative_paths[ip.1]?).getD "") thumbnails_dir

/-- A fully failing collaborator environment: every oracle reports an
error; the base the concrete test environments below override. -/
def baseEnv : Env :=
  { metadata := fun _ => Except.error "io",
    exif := fun _ => none,
    decodeHeif := fun _ => Except.error "io",
    decodeStd := fun _ => Except.error "io",
    phash := fun _ => "",
    thumbsGen := fun _ _ _ => Except.ok (),
    clip := fun _ => none,
    readRaw := fun _ => Except.error "io",
    openRaw := fun _ => Except.error "io",
    extractThumbs := fun _ => Except.error "io",
    decodeMem := fun _ => none,
    unpackRaw := fun _ => Except.error "io",
    processRaw := fun _ => Except.error "io",
    bufferOk := fun _ => false }

/-- An environment whose filesystem reports size 42 and timestamps 5/6
for every path. -/
def metaEnv : Env :=
  { baseEnv with
    metadata := fun _ => Except.ok { size := 42, created := some 5, modified := some 6 } }

/-- An environment where every RAW decode stage succeeds (demosaic yields
a 1×1 black raster) and no embedded preview is available. -/
def rawOkEnv : Env :=
  { baseEnv with
    readRaw := fun _ => Except.ok 0,
    openRaw := fun _ => Except.ok (),
    unpackRaw := fun _ => Except.ok (),
    processRaw := fun _ => Except.ok ⟨1, 1, fun _ _ => fun _ => 0⟩,
    bufferOk := fun _ => true }

/-- A 1×1 all-black raster: its histogram occupies only bucket 0, so its
CDF is constant. -/
def blackImg : RgbImg := ⟨1, 1, fun _ _ => fun _ => 0⟩

/-- The red-channel CDF the pipeline computes for `blackImg`. -/
def blackCdf : Nat → ℚ := histogram_to_cdf (compute_rgb_histograms_sampled blackImg 0)

/-- Invariant of the binary-search loop: on a monotone target CDF, starting
from a window whose left part is all strictly below `s` and whose right
end is at or above `s` (or is the initial 255), the loop lands on the
partition point: everything below the result is strictly below `s`, and
the result itself is at or above `s` unless it is 255. -/
theorem bsearchLoop_spec (t : Nat → ℚ) (mono : ∀ a b, a ≤ b → t a ≤ t b) (s : ℚ) :
    ∀ d low high, high - low = d → low ≤ high →
      (∀ k, k < low → t k < s) → (s ≤ t high ∨ high = 255) →
      low ≤ bsearchLoop t s low high ∧ bsearchLoop t s low high ≤ high ∧
      (∀ k, k < bsearchLoop t s low high → t k < s) ∧
      (s ≤ t (bsearchLoop t s low high) ∨ bsearchLoop t s low high = 255) := by
  intro d
  induction d using Nat.strong_induction_on with
  | _ d ih =>
    intro low high hd hle hlow hhigh
    rw [bsearchLoop]
    split
    case isTrue hlt =>
      split
      case isTrue hmid =>
        have key := ih (high - ((low + high) / 2 + 1)) (by omega) ((low + high) / 2 + 1) high
          rfl (by omega) ?_ hhigh
        · exact ⟨le_trans (by omega) key.1, key.2.1, key.2.2⟩
        · intro k hk
          rcases Nat.lt_or_ge k low with h2 | h2
          · exact hlow k h2
          · exact lt_of_le_of_lt (mono k ((low + high) / 2) (by omega)) hmid
      case isFalse hmid =>
        have key := ih ((low + high) / 2 - low) (by omega) low ((low + high) / 2)
          rfl (by omega) hlow (Or.inl (le_of_not_lt hmid))
        exact ⟨key.1, le_trans key.2.1 (by omega), key.2.2.1, key.2.2.2⟩
    case isFalse hlt =>
      have heq : low = high := by omega
      refine ⟨le_refl _, by omega, hlow, ?_⟩
      rcases hhigh with h2 | h2
      · exact Or.inl (heq ▸ h2)
      · exact Or.inr (by omega)

/-- The loop as `build_tone_curve` calls it (full window 0..255). -/
theorem bsearchLoop_result (t : Nat → ℚ) (mono : ∀ a b, a ≤ b → t a ≤ t b) (s : ℚ) :
    bsearchLoop t s 0 255 ≤ 255 ∧
    (∀ k, k < bsearchLoop t s 0 255 → t k < s) ∧
    (s ≤ t (bsearchLoop t s 0 255) ∨ bsearchLoop t s 0 255 = 255) :=
  (bsearchLoop_spec t mono s 255 0 255 rfl (by omega)
    (fun k hk => absurd hk (Nat.not_lt_zero k)) (Or.inr rfl)).2

/-- The partition point is monotone in the searched percentile. -/
theorem bsearchLoop_mono_s (t : Nat → ℚ) (mono : ∀ a b, a ≤ b → t a ≤ t b) (s1 s2 : ℚ)
    (h : s1 ≤ s2) : bsearchLoop t s1 0 255 ≤ bsearchLoop t s2 0 255 := by
  by_contra hc
  push_neg at hc
  obtain ⟨hle1, hk1, _⟩ := bsearchLoop_result t mono s1
  obtain ⟨hle2, _, hor2⟩ := bsearchLoop_result t mono s2
  have h1 : t (bsearchLoop t s2 0 255) < s1 := hk1 _ hc
  rcases hor2 with h2 | h2
  · linarith
  · omega

/-- The curve entry, with the `as u8` cast discharged (the partition point
never exceeds 255). -/
theorem build_tone_curve_val (s t : Nat → ℚ) (mono : ∀ a b, a ≤ b → t a ≤ t b) (i : Nat) :
    (build_tone_curve s t i).val =
      if 0 < bsearchLoop t (s i) 0 255 ∧
          |s i - t (bsearchLoop t (s i) 0 255 - 1)| < |s i - t (bsearchLoop t (s i) 0 255)| then
        bsearchLoop t (s i) 0 255 - 1
      else bsearchLoop t (s i) 0 255 := by
  have hle := (bsearchLoop_result t mono (s i)).1
  simp only [build_tone_curve]
  split_ifs with hc
  · exact Nat.mod_eq_of_lt (by omega)
  · exact Nat.mod_eq_of_lt (by omega)

/-- Tone curves built from monotone CDFs are monotone: the partition point
is monotone, and the step-back-by-one adjustment can only fire at the
lower of two levels sharing a partition point when it fires at the
higher. -/
theorem build_tone_curve_mono (s t : Nat → ℚ)
    (ms : ∀ a b, a ≤ b → s a ≤ s b) (mt : ∀ a b, a ≤ b → t a ≤ t b)
    (i j : Nat) (hij : i ≤ j) :
    build_tone_curve s t i ≤ build_tone_curve s t j := by
  have hsij : s i ≤ s j := ms i j hij
  have hLij : bsearchLoop t (s i) 0 255 ≤ bsearchLoop t (s j) 0 255 :=
    bsearchLoop_mono_s t mt (s i) (s j) hsij
  rw [Fin.le_def, build_tone_curve_val s t mt i, build_tone_curve_val s t mt j]
  rcases eq_or_lt_of_le hLij with hEq | hLt
  · -- same partition point
    rw [← hEq]
    by_cases cj : 0 < bsearchLoop t (s i) 0 255 ∧
        |s j - t (bsearchLoop t (s i) 0 255 - 1)| < |s j - t (bsearchLoop t (s i) 0 255)|
    · -- the lower neighbour wins at j, so it wins at i as well
      have ci : 0 < bsearchLoop t (s i) 0 255 ∧
          |s i - t (bsearchLoop t (s i) 0 255 - 1)| < |s i - t (bsearchLoop t (s i) 0 255)| := by
        obtain ⟨hL0, habs⟩ := cj
        have hbelow := (bsearchLoop_result t mt (s i)).2.1
        have hlow : t (bsearchLoop t (s i) 0 255 - 1) < s i := hbelow _ (by omega)
        have hlow2 : t (bsearchLoop t (s i) 0 255 - 1) < s j := lt_of_lt_of_le hlow hsij
        have hmono : t (bsearchLoop t (s i) 0 255 - 1) ≤ t (bsearchLoop t (s i) 0 255) :=
          mt _ _ (by omega)
        have habs1 : |s j - t (bsearchLoop t (s i) 0 255 - 1)|
            = s j - t (bsearchLoop t (s i) 0 255 - 1) := abs_of_pos (by linarith)
        have hjL : s j ≤ t (bsearchLoop t (s i) 0 255) := by
          by_contra hcon
          push_neg at hcon
          have h2 : |s j - t (bsearchLoop t (s i) 0 255)|
              = s j - t (bsearchLoop t (s i) 0 255) := abs_of_pos (by linarith)
          rw [habs1, h2] at habs
          linarith
        have habs2 : |s j - t (bsearchLoop t (s i) 0 255)|
            = t (bsearchLoop t (s i) 0 255) - s j := by
          rw [abs_sub_comm]
          exact abs_of_nonneg (by linarith)
        rw [habs1, habs2] at habs
        have hiL : s i ≤ t (bsearchLoop t (s i) 0 255) := le_trans hsij hjL
        have hi1 : |s i - t (bsearchLoop t (s i) 0 255 - 1)|
            = s i - t (bsearchLoop t (s i) 0 255 - 1) := abs_of_pos (by linarith)
        have hi2 : |s i - t (bsearchLoop t (s i) 0 255)|
            = t (bsearchLoop t (s i) 0 255) - s i := by
          rw [abs_sub_comm]
          exact abs_of_nonneg (by linarith)
        refine ⟨hL0, ?_⟩
        rw [hi1, hi2]
        linarith
      rw [if_pos ci, if_pos cj]
    · rw [if_neg cj]
      have h1 : (if 0 < bsearchLoop t (s i) 0 255 ∧
          |s i - t (bsearchLoop t (s i) 0 255 - 1)| < |s i - t (bsearchLoop t (s i) 0 255)| then
            bsearchLoop t (s i) 0 255 - 1
          else bsearchLoop t (s i) 0 255) ≤ bsearchLoop t (s i) 0 255 := by
        split_ifs <;> omega
      omega
  · -- the partition point strictly increases
    have h1 : (if 0 < bsearchLoop t (s i) 0 255 ∧
        |s i - t (bsearchLoop t (s i) 0 255 - 1)| < |s i - t (bsearchLoop t (s i) 0 255)| then
          bsearchLoop t (s i) 0 255 - 1
        else bsearchLoop t (s i) 0 255) ≤ bsearchLoop t (s i) 0 255 := by
      split_ifs <;> omega
    have h2 : bsearchLoop t (s j) 0 255 - 1 ≤
        (if 0 < bsearchLoop t (s j) 0 255 ∧
        |s j - t (bsearchLoop t (s j) 0 255 - 1)| < |s j - t (bsearchLoop t (s j) 0 255)| then
          bsearchLoop t (s j) 0 255 - 1
        else bsearchLoop t (s j) 0 255) := by
      split_ifs <;> omega
    omega

/-- Every CDF `histogram_to_cdf` produces is monotone non-decreasing. -/
theorem histogram_to_cdf_mono (h : Nat → Nat) :
    ∀ a b, a ≤ b → histogram_to_cdf h a ≤ histogram_to_cdf h b := by
  intro a b hab
  simp only [histogram_to_cdf]
  split_ifs with h0
  · exact le_refl 0
  · have hpos : (0 : ℚ) < ((∑ v ∈ Finset.range 256, h v : Nat) : ℚ) :=
      Nat.cast_pos.mpr (Nat.pos_of_ne_zero h0)
    have hsub : ((∑ v ∈ Finset.range (a + 1), h v : Nat) : ℚ)
        ≤ ((∑ v ∈ Finset.range (b + 1), h v : Nat) : ℚ) :=
      Nat.cast_le.mpr (Finset.sum_le_sum_of_subset (Finset.range_subset.mpr (by omega)))
    exact (div_le_div_iff_of_pos_right hpos).mpr hsub

/-- When every bucket is occupied, the CDF is strictly increasing on
0..255. -/
theorem histogram_to_cdf_strict (h : Nat → Nat) (hpos : ∀ v, v < 256 → 0 < h v) :
    ∀ a b, a < b → b ≤ 255 → histogram_to_cdf h a < histogram_to_cdf h b := by
  intro a b hab hb
  simp only [histogram_to_cdf]
  have h0 : ¬ (∑ v ∈ Finset.range 256, h v) = 0 := by
    intro hz
    rw [Finset.sum_eq_zero_iff] at hz
    exact absurd (hz 0 (Finset.mem_range.mpr (by norm_num)))
      (by have := hpos 0 (by norm_num); omega)
  rw [if_neg h0, if_neg h0]
  have hpos2 : (0 : ℚ) < ((∑ v ∈ Finset.range 256, h v : Nat) : ℚ) :=
    Nat.cast_pos.mpr (Nat.pos_of_ne_zero h0)
  have hsub : ((∑ v ∈ Finset.range (a + 1), h v : Nat) : ℚ)
      < ((∑ v ∈ Finset.range (b + 1), h v : Nat) : ℚ) := by
    refine Nat.cast_lt.mpr (Finset.sum_lt_sum_of_subset
      (Finset.range_subset.mpr (by omega)) (Finset.mem_range.mpr (by omega))
      (by simp only [Finset.mem_range]; omega) (hpos b (by omega)) ?_)
    intro k _ _
    exact Nat.zero_le _
  exact div_lt_div_of_pos_right hsub hpos2

/-- When no level of the target CDF is strictly below the percentile, the
loop never moves its lower bound. -/
theorem bsearchLoop_stays (t : Nat → ℚ) (s : ℚ) (hstall : ∀ k, ¬ t k < s) :
    ∀ d low high, high - low = d → bsearchLoop t s low high = low := by
  intro d
  induction d using Nat.strong_induction_on with
  | _ d ih =>
    intro low high hd
    rw [bsearchLoop]
    split
    case isTrue hlt =>
      rw [if_neg (hstall _)]
      exact ih ((low + high) / 2 - low) (by omega) low ((low + high) / 2) rfl
    case isFalse hlt => rfl

/-- The pipeline's histogram of the 1×1 black raster occupies bucket 0
only. -/
theorem blackHist (v : Nat) :
    compute_rgb_histograms_sampled blackImg 0 v = if v = 0 then 1 else 0 := by
  unfold compute_rgb_histograms_sampled blackImg sampleStep linPix
  by_cases hv : v = 0
  · subst hv
    decide
  · rw [if_neg hv]
    simp only []
    rw [Finset.card_eq_zero, Finset.filter_eq_empty_iff]
    intro i hi
    simp only [Finset.mem_range] at hi
    intro hc
    exact hv (hc.2.symm)

/-- The 1×1 black raster's CDF is the constant 1: a fully degenerate
plateau. -/
theorem blackCdf_eq (k : Nat) : blackCdf k = 1 := by
  unfold blackCdf
  simp only [histogram_to_cdf]
  have h256 : (∑ v ∈ Finset.range 256, compute_rgb_histograms_sampled blackImg 0 v) = 1 := by
    simp [blackHist]
  have hk : (∑ v ∈ Finset.range (k + 1), compute_rgb_histograms_sampled blackImg 0 v) = 1 := by
    simp [blackHist]
  rw [h256, hk]
  norm_num

/-- Claim C1: for every pair of input lists and every thumbnails root,
`process_photos_batch` returns one record per input path, in input order,
and slot i is exactly `process_photo_internal` applied to the i-th file
path and the i-th relative path; items are computed independently, so no
single item's failure (a failed record) removes or shifts another slot. -/
theorem process_photos_batch_slots (env : Env) (file_paths relative_paths : List String)
    (thumbnails_dir : String) :
    (process_photos_batch env file_paths relative_paths thumbnails_dir).length
      = file_paths.length ∧
    ∀ i, i < file_paths.length → i < relative_paths.length →
      (process_photos_batch env file_paths relative_paths thumbnails_dir)[i]? =
        some (process_photo_internal env (file_paths.getD i "") (relative_paths.getD i "")
          thumbnails_dir) := by
  constructor
  · simp [process_photos_batch]
  · intro i h1 h2
    simp only [process_photos_batch, List.getElem?_map, List.getElem?_enum,
      List.getElem?_eq_getElem h1, List.getElem?_eq_getElem h2,
      Option.map_some, Option.some.injEq]
    simp [List.getD, List.getElem?_eq_getElem h1, List.getElem?_eq_getElem h2]

/-- Claim C2: for every input path (standard, HEIF, RAW or unsupported),
the returned record has the width present exactly when the height is, and
`success = false` exactly when both dimensions are absent. -/
theorem width_height_success (env : Env) (fp rp dir : String) :
    ((process_photo_internal env fp rp dir).width.isSome ↔
      (process_photo_internal env fp rp dir).height.isSome) ∧
    ((process_photo_internal env fp rp dir).success = false ↔
      ((process_photo_internal env fp rp dir).width = none ∧
       (process_photo_internal env fp rp dir).height = none)) := by
  unfold process_photo_internal
  split
  · -- Raw
    unfold process_raw_file
    split
    · simp
    · cases h : (process_raw_complete_internal env fp rp dir).success <;> simp [h]
  · -- Heif
    unfold process_standard_image
    split
    · simp
    · split
      · cases hd : env.decodeHeif fp <;> simp [Except.map]
      · cases hd : env.decodeStd fp <;> simp
  · -- Standard
    unfold process_standard_image
    split
    · simp
    · split
      · cases hd : env.decodeHeif fp <;> simp [Except.map]
      · cases hd : env.decodeStd fp <;> simp
  · -- Unsupported
    simp

/-- Claim C3: the record's `raw_status` is present exactly when the path's
extension classifies it as RAW, and then it is "converted" precisely on
success and "failed" otherwise. -/
theorem raw_status_iff (env : Env) (fp rp dir : String) :
    (process_photo_internal env fp rp dir).raw_status =
      (if detect_file_type fp = FileType.Raw then
        some (if (process_photo_internal env fp rp dir).success then "converted" else "failed")
      else none) := by
  unfold process_photo_internal
  split
  case _ h =>
    rw [if_pos h]
    unfold process_raw_file
    split
    · simp
    · simp
  case _ h =>
    rw [if_neg (by rw [h]; intro hc; cases hc)]
    unfold process_standard_image
    split
    · simp
    · split
      · cases hd : env.decodeHeif fp <;> simp [Except.map]
      · cases hd : env.decodeStd fp <;> simp
  case _ h =>
    rw [if_neg (by rw [h]; intro hc; cases hc)]
    unfold process_standard_image
    split
    · simp
    · split
      · cases hd : env.decodeHeif fp <;> simp [Except.map]
      · cases hd : env.decodeStd fp <;> simp
  case _ h =>
    rw [if_neg (by rw [h]; intro hc; cases hc)]

/-- Claim C4 (amended): a path classified as unsupported yields a failed
record with both dimensions absent and the fixed error "Unsupported file
type", but with byte size and creation/modification timestamps hardcoded
to zero — the filesystem is never consulted for them. -/
theorem unsupported_record (env : Env) (fp rp dir : String)
    (h : detect_file_type fp = FileType.Unsupported) :
    (process_photo_internal env fp rp dir).success = false ∧
    (process_photo_internal env fp rp dir).width = none ∧
    (process_photo_internal env fp rp dir).height = none ∧
    (process_photo_internal env fp rp dir).error = some "Unsupported file type" ∧
    (process_photo_internal env fp rp dir).size = 0 ∧
    (process_photo_internal env fp rp dir).created_at = 0 ∧
    (process_photo_internal env fp rp dir).modified_at = 0 := by
  simp [process_photo_internal, h]

/-- Witness for C4's amended claim: the record of "a/photo.txt" in an
environment whose filesystem answers for every path. -/
theorem unsupported_record_witness :
    (process_photo_internal metaEnv "a/photo.txt" "photo.txt" "thumbs").success = false ∧
    (process_photo_internal metaEnv "a/photo.txt" "photo.txt" "thumbs").width = none ∧
    (process_photo_internal metaEnv "a/photo.txt" "photo.txt" "thumbs").height = none ∧
    (process_photo_internal metaEnv "a/photo.txt" "photo.txt" "thumbs").error
      = some "Unsupported file type" ∧
    (process_photo_internal metaEnv "a/photo.txt" "photo.txt" "thumbs").size = 0 ∧
    (process_photo_internal metaEnv "a/photo.txt" "photo.txt" "thumbs").created_at = 0 ∧
    (process_photo_internal metaEnv "a/photo.txt" "photo.txt" "thumbs").modified_at = 0 :=
  unsupported_record metaEnv "a/photo.txt" "photo.txt" "thumbs" (by decide)

/-- Counterexample to C4 as stated: the filesystem reports size 42 and
timestamps 5/6 for "a/photo.txt" (so they are obtainable), yet the
unsupported-type record carries size 0 and timestamps 0. -/
theorem unsupported_metadata_cex :
    metaEnv.metadata "a/photo.txt"
      = Except.ok { size := 42, created := some 5, modified := some 6 } ∧
    (process_photo_internal metaEnv "a/photo.txt" "photo.txt" "thumbs").error
      = some "Unsupported file type" ∧
    (process_photo_internal metaEnv "a/photo.txt" "photo.txt" "thumbs").size ≠ 42 ∧
    (process_photo_internal metaEnv "a/photo.txt" "photo.txt" "thumbs").created_at ≠ 5 ∧
    (process_photo_internal metaEnv "a/photo.txt" "photo.txt" "thumbs").modified_at ≠ 6 := by
  refine ⟨rfl, ?_, ?_, ?_, ?_⟩
  · simp only [process_photo_internal,
      show detect_file_type "a/photo.txt" = FileType.Unsupported from by decide]
  · simp only [process_photo_internal,
      show detect_file_type "a/photo.txt" = FileType.Unsupported from by decide]
    norm_num
  · simp only [process_photo_internal,
      show detect_file_type "a/photo.txt" = FileType.Unsupported from by decide]
    norm_num
  · simp only [process_photo_internal,
      show detect_file_type "a/photo.txt" = FileType.Unsupported from by decide]
    norm_num

/-- Claim C5 (amended): when the two CDFs come from the same histogram and
every one of the 256 buckets is occupied (the CDF has no plateaus), the
tone curve is the identity on every level. Empty buckets create CDF
plateaus on which the binary search lands on the plateau's first level,
so the unqualified claim fails (see the counterexample). -/
theorem tone_curve_identity (h : Nat → Nat) (hpos : ∀ v, v < 256 → 0 < h v)
    (i : Nat) (hi : i < 256) :
    build_tone_curve (histogram_to_cdf h) (histogram_to_cdf h) i = ⟨i, hi⟩ := by
  have mono := histogram_to_cdf_mono h
  obtain ⟨hle, hbelow, hor⟩ :=
    bsearchLoop_result (histogram_to_cdf h) mono (histogram_to_cdf h i)
  have hLi : bsearchLoop (histogram_to_cdf h) (histogram_to_cdf h i) 0 255 = i := by
    rcases Nat.lt_trichotomy (bsearchLoop (histogram_to_cdf h) (histogram_to_cdf h i) 0 255) i
      with hlt | heq | hgt
    · have hne : bsearchLoop (histogram_to_cdf h) (histogram_to_cdf h i) 0 255 ≠ 255 := by omega
      have h1 : histogram_to_cdf h i
          ≤ histogram_to_cdf h (bsearchLoop (histogram_to_cdf h) (histogram_to_cdf h i) 0 255) :=
        hor.resolve_right hne
      have h2 : histogram_to_cdf h (bsearchLoop (histogram_to_cdf h) (histogram_to_cdf h i) 0 255)
          < histogram_to_cdf h i := histogram_to_cdf_strict h hpos _ i hlt (by omega)
      linarith
    · exact heq
    · have := hbelow i hgt
      linarith
  apply Fin.ext
  rw [build_tone_curve_val (histogram_to_cdf h) (histogram_to_cdf h) mono i, hLi]
  rw [if_neg]
  intro hc
  have h2 := hc.2
  rw [sub_self, abs_zero] at h2
  exact absurd h2 (not_lt.mpr (abs_nonneg _))

/-- Witness for C5's amended claim: the uniform histogram (every bucket
count 1) maps level 7 to 7. -/
theorem tone_curve_identity_witness :
    build_tone_curve (histogram_to_cdf (fun _ => 1)) (histogram_to_cdf (fun _ => 1)) 7
      = ⟨7, by norm_num⟩ :=
  tone_curve_identity (fun _ => 1) (fun _ _ => Nat.one_pos) 7 (by norm_num)

/-- Counterexample to C5 as stated: the source and target CDFs both come
from the 1×1 black raster (identical rasters), yet the curve maps level 1
to 0, not to 1: the constant CDF is one big plateau. -/
theorem tone_curve_identity_cex :
    (build_tone_curve blackCdf blackCdf 1).val = 0 ∧ (0 : Nat) ≠ 1 := by
  constructor
  · have hL : bsearchLoop blackCdf (blackCdf 1) 0 255 = 0 :=
      bsearchLoop_stays blackCdf (blackCdf 1)
        (fun k => by rw [blackCdf_eq k, blackCdf_eq 1]; exact lt_irrefl 1) 255 0 255 rfl
    simp [build_tone_curve, hL]
  · omega

/-- Claim C6: once every phase-2 decode stage of a RAW file succeeds (the
tone-matching decision is reached), the record succeeds, and
`histogram_matched` is true exactly when an embedded JPEG preview was
extracted and decoded with its shorter side at least 800 pixels; a small
or missing preview leaves the record successful. -/
theorem histogram_matched_iff (env : Env) (fp rp dir : String) (fd : Nat) (dimg : RgbImg)
    (h1 : env.readRaw fp = Except.ok fd)
    (h2 : env.openRaw fd = Except.ok ())
    (h3 : env.unpackRaw fd = Except.ok ())
    (h4 : env.processRaw fd = Except.ok dimg)
    (h5 : env.bufferOk fd = true) :
    (process_raw_complete_internal env fp rp dir).success = true ∧
    ((process_raw_complete_internal env fp rp dir).histogram_matched = true ↔
      ∃ p b, extract_preview_with_jpeg env fd = some (p, b) ∧ 800 ≤ min p.width p.height) := by
  unfold process_raw_complete_internal
  simp only [h1, h2, h3, h4, h5, if_true]
  cases hp : extract_preview_with_jpeg env fd with
  | none => simp [hp]
  | some pr =>
    obtain ⟨p, b⟩ := pr
    by_cases hm : 800 ≤ min p.width p.height
    · simp only [min_le_iff, le_min_iff] at hm
      simp [hp, hm]
    · rw [not_le, min_lt_iff] at hm
      simp [hp]
      rw [if_neg (fun hc => by rcases hm with hm | hm <;> omega)]
      simp
      intro hw
      rcases hm with hm | hm <;> omega

/-- Witness for C6: an environment whose decode stages all succeed but
with no extractable preview; the record succeeds and is unmatched. -/
theorem histogram_matched_iff_witness :
    (process_raw_complete_internal rawOkEnv "photo.cr2" "photo.cr2" "thumbs").success = true ∧
    ((process_raw_complete_internal rawOkEnv "photo.cr2" "photo.cr2" "thumbs").histogram_matched
        = true ↔
      ∃ p b, extract_preview_with_jpeg rawOkEnv 0 = some (p, b) ∧
        800 ≤ min p.width p.height) :=
  histogram_matched_iff rawOkEnv "photo.cr2" "photo.cr2" "thumbs" 0
    ⟨1, 1, fun _ _ => fun _ => 0⟩ rfl rfl rfl rfl rfl

/-- Claim C7: for every raster, an absent orientation code, code 1, and
every code outside 2..8 (such as 0 or 9) leave the raster unchanged. -/
theorem apply_orientation_id {α : Type} (img : Img α) (orientation : Option Nat)
    (h : ∀ n, orientation = some n → n < 2 ∨ 8 < n) :
    apply_orientation img orientation = img := by
  match orientation with
  | none => rfl
  | some n =>
    rcases h n rfl with h2 | h2
    · interval_cases n <;> rfl
    · obtain ⟨k, rfl⟩ : ∃ k, n = k + 9 := ⟨n - 9, by omega⟩
      rfl

/-- Witness for C7: orientation code 9 on a concrete 1×1 raster. -/
theorem apply_orientation_id_witness :
    apply_orientation (⟨1, 1, fun _ _ => 0⟩ : Img Nat) (some 9) = ⟨1, 1, fun _ _ => 0⟩ :=
  apply_orientation_id _ _ (fun n h => by simp only [Option.some.injEq] at h; omega)

/-- Claim C8: orientation code 6 turns a W×H raster into an H×W raster,
and applying code 8 to the result restores the original raster
pixel-for-pixel. -/
theorem rotate90_rotate270_inverse {α : Type} (img : Img α) :
    (apply_orientation img (some 6)).width = img.height ∧
    (apply_orientation img (some 6)).height = img.width ∧
    ImgEq (apply_orientation (apply_orientation img (some 6)) (some 8)) img := by
  refine ⟨rfl, rfl, rfl, rfl, ?_⟩
  intro x y hx hy
  show img.pix x (img.height - 1 - (img.height - 1 - y)) = img.pix x y
  congr 1
  omega

/-- Claim C9: the sampling stride is total_pixels / 500000 floored with
minimum 1 (hence 1 for rasters of at most 500000 pixels), and each
channel histogram's total count is exactly the number of row-major pixel
indices divisible by the stride. -/
theorem histogram_sampling (img : RgbImg) (ch : Fin 3) :
    sampleStep (img.width * img.height) = max ((img.width * img.height) / 500000) 1 ∧
    (∑ v ∈ Finset.range 256, compute_rgb_histograms_sampled img ch v) =
      ((Finset.range (img.width * img.height)).filter
        (fun i => i % sampleStep (img.width * img.height) = 0)).card := by
  constructor
  · unfold sampleStep
    split_ifs with h1
    · rfl
    · have h2 : img.width * img.height / 500000 ≤ 1 := by omega
      exact (Nat.max_eq_right h2).symm
  · have hmaps : ∀ x ∈ (Finset.range (img.width * img.height)).filter
        (fun i => i % sampleStep (img.width * img.height) = 0),
        (linPix img x ch : Nat) ∈ Finset.range 256 :=
      fun x _ => Finset.mem_range.mpr (Fin.is_lt _)
    rw [Finset.card_eq_sum_card_fiberwise hmaps]
    unfold compute_rgb_histograms_sampled
    apply Finset.sum_congr rfl
    intro v _
    rw [Finset.filter_filter]

/-- Claim C10: tone curves built from any two CDFs that
`histogram_to_cdf` produces are monotone non-decreasing in the intensity
level. -/
theorem tone_curve_monotone (hs ht : Nat → Nat) (i j : Nat) (hij : i ≤ j) :
    build_tone_curve (histogram_to_cdf hs) (histogram_to_cdf ht) i
      ≤ build_tone_curve (histogram_to_cdf hs) (histogram_to_cdf ht) j :=
  build_tone_curve_mono (histogram_to_cdf hs) (histogram_to_cdf ht)
    (histogram_to_cdf_mono hs) (histogram_to_cdf_mono ht) i j hij

/-- Witness for C10: uniform histograms at levels 2 ≤ 5. -/
theorem tone_curve_monotone_witness :
    build_tone_curve (histogram_to_cdf (fun _ => 1)) (histogram_to_cdf (fun _ => 1)) 2
      ≤ build_tone_curve (histogram_to_cdf (fun _ => 1)) (histogram_to_cdf (fun _ => 1)) 5 :=
  tone_curve_monotone (fun _ => 1) (fun _ => 1) 2 5 (by norm_num)
